import Mathlib

/-!
Verification development for the `ConversionWorker.run` conversion pipeline of
`pdf_to_pptx_converter.py` (PDF/Image → PPTX converter).

The pipeline is embedded shallowly: external library calls (pdf2image's
`convert_from_path`, PIL's `Image.open` and JPEG encoding, python-pptx's
presentation object) are modelled by the data they return, carried in the
input `ItemData` values.  Qt signal emissions (`status_updated`,
`progress_updated`, `finished_signal`) are modelled as an event trace.
The `is_running` liveness flag is polled at three kinds of sites (top of the
per-file loop, top of the per-page loop, and the guard before saving); since
`stop()` only ever clears the flag, a flag history is antitone and is
represented by `cancelAt : Option Nat` — the index of the first poll that
observes the cleared flag (`none` = never cancelled).
-/

namespace PdfToPptx

/-- PIL color modes relevant to the pipeline (`'1'`, `'L'`, `'LA'`, `'P'`,
`'PA'`, `'RGB'`, `'RGBA'`, `'CMYK'`).  `one` stands for PIL's mode `'1'`. -/
inductive Mode
  | one
  | L
  | LA
  | P
  | PA
  | RGB
  | RGBA
  | CMYK
deriving DecidableEq, Repr

/-- Does the mode carry an alpha channel? (PIL: `LA`, `PA`, `RGBA`.) -/
def Mode.hasAlpha : Mode → Bool
  | .LA => true
  | .PA => true
  | .RGBA => true
  | _ => false

/-- Is the mode palette-based? (PIL: `P`, `PA`.) -/
def Mode.isPalette : Mode → Bool
  | .P => true
  | .PA => true
  | _ => false

/-- Modelled from the spec: "the downstream image encoding step does not
support those modes" (modes carrying an alpha channel or a palette).  The
JPEG writer used by `img.save(..., format="JPEG")` accepts a mode exactly
when it carries neither alpha nor a palette; on an unsupported mode the
save call raises. -/
def jpegWritable (m : Mode) : Bool :=
  !(m.hasAlpha || m.isPalette)

/-- A raster image as returned by the external libraries: pixel dimensions
(`img.size`) and color mode (`img.mode`). -/
structure Img where
  width : ℕ
  height : ℕ
  mode : Mode
deriving DecidableEq, Repr

/-- One input item together with the responses of the external libraries on
it.  For a `.pdf` path, `probe` is the result of
`convert_from_path(path, dpi, first_page=1, last_page=1)` (`none` = the call
raised) and `pages` the result of `convert_from_path(path, dpi, fmt='jpeg')`;
for an image path, `loaded` is the result of `Image.open(path)`
(`none` = the call raised). -/
inductive ItemData
  | pdf (probe : Option (List Img)) (pages : Option (List Img))
  | image (loaded : Option Img)
deriving DecidableEq, Repr

/-- `ConversionWorker.get_reference_size`: for a PDF, rasterize page 1 and
return `images[0].size` when the returned list is nonempty; for an image,
return `img.size`; on an exception or an empty list return `None`. -/
def get_reference_size (item : ItemData) : Option (ℕ × ℕ) :=
  match item with
  | .pdf probe _ =>
    match probe with
    | some (img :: _) => some (img.width, img.height)
    | _ => none
  | .image (some img) => some (img.width, img.height)
  | .image none => none

/-- Python's `int()` applied to a real value: truncation toward zero. -/
def pyInt (q : ℚ) : ℤ :=
  if 0 ≤ q then ⌊q⌋ else -⌊-q⌋

/-- The per-page JPEG quality: `95 if self.dpi >= 300 else 85`. -/
def quality (dpi : ℕ) : ℕ :=
  if 300 ≤ dpi then 95 else 85

/-- The flattening applied to a loaded single image:
`if img.mode in ('RGBA', 'P'): img = img.convert('RGB')`. -/
def effModeFn (m : Mode) : Mode :=
  if m = .RGBA ∨ m = .P then .RGB else m

/-- A picture placed on a slide by `slide.shapes.add_picture(stream, 0, 0,
width=prs.slide_width, height=prs.slide_height)`, remembering the JPEG
quality and the color mode of the image that was encoded into the stream. -/
structure Picture where
  left : ℤ
  top : ℤ
  width : ℤ
  height : ℤ
  quality : ℕ
  mode : Mode
deriving DecidableEq, Repr

/-- One slide of the deck: the pictures placed on it (the pipeline places at
most one; a slide stays empty when the encode of its image raised). -/
structure Slide where
  pictures : List Picture
deriving DecidableEq, Repr

/-- The python-pptx presentation object: global slide size plus the slides. -/
structure Pres where
  slideWidth : ℤ
  slideHeight : ℤ
  slides : List Slide
deriving DecidableEq, Repr

/-- `Presentation()` with python-pptx's default slide size (10 × 7.5 inches,
i.e. 9144000 × 6858000 EMU) and no slides. -/
def defaultPres : Pres :=
  ⟨9144000, 6858000, []⟩

/-- Append a slide to the deck (`prs.slides.add_slide(blank_slide_layout)`,
together with the picture subsequently placed on it, if any). -/
def addSlide (prs : Pres) (s : Slide) : Pres :=
  { prs with slides := prs.slides ++ [s] }

/-- Status messages, one constructor per `status_updated.emit` site in
`ConversionWorker.run` (payloads: 0-based item index, page index, page
count). -/
inductive StatusMsg
  | starting
  | probing
  | probeFailed
  | loadingPdf (i : ℕ)
  | pdfEmpty (i : ℕ)
  | openingImage (i : ℕ)
  | converting (i p tot : ℕ)
  | itemError (i : ℕ)
  | saving
  | saveDone
  | saveFailed
deriving DecidableEq, Repr

/-- Signals emitted by the worker, in order. -/
inductive Event
  | status (m : StatusMsg)
  | progress (pct : ℤ)
  | finished
deriving DecidableEq, Repr

/-- Mutable state threaded through the conversion loop: the number `k` of
polls of the `is_running` flag so far, the emitted events, the presentation
being built, and `processed_count`. -/
structure LoopState where
  k : ℕ
  events : List Event
  prs : Pres
  processed : ℕ
deriving DecidableEq, Repr

/-- Emit one signal. -/
def emit (st : LoopState) (e : Event) : LoopState :=
  { st with events := st.events ++ [e] }

/-- The value the `is_running` flag shows to its `k`-th poll, for a flag
history that is cleared just before poll `t` (or never, for `none`). -/
def aliveAt (cancelAt : Option ℕ) (k : ℕ) : Bool :=
  match cancelAt with
  | none => true
  | some t => k < t

/-- Lines 147–149 of the source, run after the `try/except` of one item:
`processed_count += 1; progress = int((processed_count / total_files) * 100);
self.progress_updated.emit(progress)`.  On exact arithmetic
`int((c / total) * 100)` is the integer division `c * 100 / total`
(theorem `pyInt_pct`), which is the form stored here. -/
def finishItem (total : ℕ) (st : LoopState) : LoopState :=
  let c := st.processed + 1
  emit { st with processed := c } (.progress ((c * 100 / total : ℕ) : ℤ))

/-- The inner per-page loop (`for p_idx, img in enumerate(images_to_process)`):
poll the flag (`break` when cleared), emit the page status, add a blank
slide, encode the image as JPEG at the DPI-determined quality and place it
full-bleed at the origin.  Returns the new state together with `true` when
the JPEG encode raised (unsupported mode), which aborts the item's remaining
pages and is caught by the item-level `except`. -/
def addPages (dpi : ℕ) (cancelAt : Option ℕ) (i tot : ℕ) :
    ℕ → List Img → LoopState → LoopState × Bool
  | _, [], st => (st, false)
  | p, img :: rest, st =>
    if aliveAt cancelAt st.k then
      let st := emit { st with k := st.k + 1 } (.status (.converting i p tot))
      let q := quality dpi
      if jpegWritable img.mode then
        let pic : Picture := ⟨0, 0, st.prs.slideWidth, st.prs.slideHeight, q, img.mode⟩
        addPages dpi cancelAt i tot (p + 1) rest { st with prs := addSlide st.prs ⟨[pic]⟩ }
      else
        ({ st with prs := addSlide st.prs ⟨[]⟩ }, true)
    else
      ({ st with k := st.k + 1 }, false)

/-- The body of the outer loop for one item (lines 90–149): load or rasterize
the item, flatten `RGBA`/`P` single images, run the page loop, report an
item-level error when anything raised, and run the progress update — except
on the two `continue` paths (empty PDF rasterization result, failed image
open), which jump straight to the next item. -/
def processItem (dpi total : ℕ) (cancelAt : Option ℕ) (i : ℕ)
    (item : ItemData) (st : LoopState) : LoopState :=
  match item with
  | .pdf _ pages =>
    let st := emit st (.status (.loadingPdf i))
    match pages with
    | none =>
      finishItem total (emit st (.status (.itemError i)))
    | some [] =>
      emit st (.status (.pdfEmpty i))
    | some imgs =>
      let r := addPages dpi cancelAt i imgs.length 0 imgs st
      finishItem total (if r.2 then emit r.1 (.status (.itemError i)) else r.1)
  | .image loaded =>
    let st := emit st (.status (.openingImage i))
    match loaded with
    | none => st
    | some img =>
      let img := { img with mode := effModeFn img.mode }
      let r := addPages dpi cancelAt i 1 0 [img] st
      finishItem total (if r.2 then emit r.1 (.status (.itemError i)) else r.1)

/-- The outer loop `for i, file_path in enumerate(self.file_list)`, polling
the flag at the top of each iteration and breaking once it is cleared. -/
def runItems (dpi total : ℕ) (cancelAt : Option ℕ) :
    ℕ → List ItemData → LoopState → LoopState
  | _, [], st => st
  | i, item :: rest, st =>
    if aliveAt cancelAt st.k then
      runItems dpi total cancelAt (i + 1) rest
        (processItem dpi total cancelAt i item { st with k := st.k + 1 })
    else
      { st with k := st.k + 1 }

/-- The status events emitted before the loop: "初期化中...", the reference
probe message, and the fallback message when the probe failed. -/
def initEvents (first : ItemData) : List Event :=
  [.status .starting, .status .probing] ++
    (match get_reference_size first with
     | some _ => []
     | none => [.status .probeFailed])

/-- The presentation after the reference-size step: on a successful probe,
`prs.slide_width = int(width_px / self.dpi * 914400)` (and the same for the
height); otherwise the library default size is kept.  On exact arithmetic
`int(px / dpi * 914400)` is the integer division `px * 914400 / dpi`
(theorem `pyInt_emu`), which is the form stored here. -/
def initPres (first : ItemData) (dpi : ℕ) : Pres :=
  match get_reference_size first with
  | some (w, h) =>
    { defaultPres with
        slideWidth := ((w * 914400 / dpi : ℕ) : ℤ)
        slideHeight := ((h * 914400 / dpi : ℕ) : ℤ) }
  | none => defaultPres

/-- The loop state reached at the end of the per-file loop, just before the
save guard (meaningful for a nonempty file list). -/
def preSave (items : List ItemData) (dpi : ℕ) (cancelAt : Option ℕ) : LoopState :=
  match items with
  | [] => ⟨0, [.status .starting], defaultPres, 0⟩
  | first :: _ =>
    runItems dpi items.length cancelAt 0 items ⟨0, initEvents first, initPres first dpi, 0⟩

/-- The result of one run: the emitted signal trace and the deck written to
disk (`none` when no file was saved). -/
structure RunResult where
  events : List Event
  saved : Option Pres
deriving DecidableEq, Repr

/-- `ConversionWorker.run`: emit the initial status, return at once on an
empty file list, otherwise probe the first item, run the per-file loop, and
— only when the flag still reads set (`if self.is_running:`) — save the deck
(`saveOk = false` models `prs.save` raising); finally emit
`finished_signal`. -/
def run (items : List ItemData) (dpi : ℕ) (cancelAt : Option ℕ) (saveOk : Bool) :
    RunResult :=
  match items with
  | [] => ⟨[.status .starting], none⟩
  | _ :: _ =>
    let st := preSave items dpi cancelAt
    if aliveAt cancelAt st.k then
      if saveOk then
        ⟨st.events ++ [.status .saving, .status .saveDone, .finished], some st.prs⟩
      else
        ⟨st.events ++ [.status .saving, .status .saveFailed, .finished], none⟩
    else
      ⟨st.events ++ [.finished], none⟩

/-- The deck accumulated by the run (saved or not). -/
def finalPres (items : List ItemData) (dpi : ℕ) (cancelAt : Option ℕ) : Pres :=
  (preSave items dpi cancelAt).prs

/-- The list of page images one item expands to (`images_to_process`), with
the `RGBA`/`P` flattening applied to a single image; empty when the load
raised or the PDF rasterization returned nothing. -/
def itemImgs (item : ItemData) : List Img :=
  match item with
  | .pdf _ (some l) => l
  | .pdf _ none => []
  | .image (some img) => [{ img with mode := effModeFn img.mode }]
  | .image none => []

/-- The slides one item contributes in an uncancelled run: one single-picture
slide per page up to the first page whose JPEG encode raises, which leaves
one final empty slide and drops the item's remaining pages. -/
def pageSlides (sw sh : ℤ) (q : ℕ) : List Img → List Slide
  | [] => []
  | img :: rest =>
    if jpegWritable img.mode then
      ⟨[⟨0, 0, sw, sh, q, img.mode⟩]⟩ :: pageSlides sw sh q rest
    else
      [⟨[]⟩]

/-- Slides contributed by one item in an uncancelled run. -/
def itemSlides (dpi : ℕ) (sw sh : ℤ) (item : ItemData) : List Slide :=
  pageSlides sw sh (quality dpi) (itemImgs item)

/-- Did rasterizing/loading the item succeed (no exception from
`convert_from_path` or `Image.open`)? -/
def loadsOk : ItemData → Bool
  | .pdf _ none => false
  | .image none => false
  | _ => true

/-- Does the item take one of the two `continue` paths that bypass the
progress update (empty PDF rasterization result, failed image open)? -/
def skipsProgress : ItemData → Bool
  | .pdf _ (some []) => true
  | .image none => true
  | _ => false

/-- Do all of the item's (flattened) page images have a mode the JPEG
encoder accepts? -/
def allWritable (item : ItemData) : Bool :=
  (itemImgs item).all (fun im => jpegWritable im.mode)

/-- The item's page count as loaded: one per rasterized PDF page, one for a
successfully opened image, zero when the load raised. -/
def loadedPages (item : ItemData) : ℕ :=
  (itemImgs item).length

/-- Was the item fully successfully processed: loaded, not skipped, and every
page encoded without raising? -/
def processedOk (item : ItemData) : Bool :=
  loadsOk item && !skipsProgress item && allWritable item

/-- The progress percentages in a trace, in order. -/
def progressList (evs : List Event) : List ℤ :=
  evs.filterMap (fun e =>
    match e with
    | .progress p => some p
    | _ => none)

/-- Is the event the `finished_signal`? -/
def isFinished : Event → Bool
  | .finished => true
  | _ => false

/-- How many times the trace emits `finished_signal`. -/
def countFinished (evs : List Event) : ℕ :=
  (evs.filter isFinished).length

/-- How many slides a page list yields: one per page up to and including the
first page whose JPEG encode raises (independent of slide size and quality). -/
def emittedCount : List Img → ℕ
  | [] => 0
  | img :: rest => if jpegWritable img.mode then emittedCount rest + 1 else 1

/-- All pictures of the deck sit at the origin, exactly cover the deck's
slide size, and were encoded at the DPI-determined JPEG quality. -/
def picsOk (dpi : ℕ) (prs : Pres) : Prop :=
  ∀ s ∈ prs.slides, ∀ pc ∈ s.pictures,
    pc.left = 0 ∧ pc.top = 0 ∧ pc.width = prs.slideWidth ∧
      pc.height = prs.slideHeight ∧ pc.quality = quality dpi

/-! ### Basic lemmas about traces and the loop state -/

@[simp]
theorem aliveAt_none (k : ℕ) : aliveAt none k = true := rfl

@[simp]
theorem emit_prs (st : LoopState) (e : Event) : (emit st e).prs = st.prs := rfl

@[simp]
theorem emit_processed (st : LoopState) (e : Event) :
    (emit st e).processed = st.processed := rfl

@[simp]
theorem finishItem_prs (total : ℕ) (st : LoopState) :
    (finishItem total st).prs = st.prs := rfl

@[simp]
theorem finishItem_processed (total : ℕ) (st : LoopState) :
    (finishItem total st).processed = st.processed + 1 := rfl

@[simp]
theorem countFinished_append (a b : List Event) :
    countFinished (a ++ b) = countFinished a + countFinished b := by
  simp [countFinished, List.filter_append]

@[simp]
theorem progressList_append (a b : List Event) :
    progressList (a ++ b) = progressList a ++ progressList b := by
  simp [progressList]

@[simp]
theorem countFinished_nil : countFinished [] = 0 := rfl

@[simp]
theorem countFinished_cons_status (m : StatusMsg) (evs : List Event) :
    countFinished (.status m :: evs) = countFinished evs := by
  simp [countFinished, isFinished]

@[simp]
theorem countFinished_cons_progress (p : ℤ) (evs : List Event) :
    countFinished (.progress p :: evs) = countFinished evs := by
  simp [countFinished, isFinished]

@[simp]
theorem countFinished_cons_finished (evs : List Event) :
    countFinished (.finished :: evs) = countFinished evs + 1 := by
  simp [countFinished, isFinished, Nat.add_comm]

@[simp]
theorem progressList_nil : progressList [] = [] := rfl

@[simp]
theorem progressList_cons_status (m : StatusMsg) (evs : List Event) :
    progressList (.status m :: evs) = progressList evs := by
  simp [progressList]

@[simp]
theorem progressList_cons_progress (p : ℤ) (evs : List Event) :
    progressList (.progress p :: evs) = p :: progressList evs := by
  simp [progressList]

@[simp]
theorem progressList_cons_finished (evs : List Event) :
    progressList (.finished :: evs) = progressList evs := by
  simp [progressList]

/-! ### Invariance of the slide size through the loop -/

theorem addPages_slideWidth (dpi : ℕ) (c : Option ℕ) (i tot : ℕ) :
    ∀ (imgs : List Img) (p : ℕ) (st : LoopState),
      ((addPages dpi c i tot p imgs st).1).prs.slideWidth = st.prs.slideWidth := by
  intro imgs
  induction imgs with
  | nil => intro p st; rfl
  | cons img rest ih =>
    intro p st
    simp only [addPages]
    split
    · split
      · rw [ih]
        simp [emit, addSlide]
      · simp [emit, addSlide]
    · rfl

theorem addPages_slideHeight (dpi : ℕ) (c : Option ℕ) (i tot : ℕ) :
    ∀ (imgs : List Img) (p : ℕ) (st : LoopState),
      ((addPages dpi c i tot p imgs st).1).prs.slideHeight = st.prs.slideHeight := by
  intro imgs
  induction imgs with
  | nil => intro p st; rfl
  | cons img rest ih =>
    intro p st
    simp only [addPages]
    split
    · split
      · rw [ih]
        simp [emit, addSlide]
      · simp [emit, addSlide]
    · rfl

theorem processItem_slideWidth (dpi total : ℕ) (c : Option ℕ) (i : ℕ)
    (item : ItemData) (st : LoopState) :
    (processItem dpi total c i item st).prs.slideWidth = st.prs.slideWidth := by
  cases item with
  | pdf probe pages =>
    cases pages with
    | none => rfl
    | some l =>
      cases l with
      | nil => rfl
      | cons a as =>
        simp only [processItem]
        split <;> simp [addPages_slideWidth, emit]
  | image loaded =>
    cases loaded with
    | none => rfl
    | some img =>
      simp only [processItem]
      split <;> simp [addPages_slideWidth, emit]

theorem processItem_slideHeight (dpi total : ℕ) (c : Option ℕ) (i : ℕ)
    (item : ItemData) (st : LoopState) :
    (processItem dpi total c i item st).prs.slideHeight = st.prs.slideHeight := by
  cases item with
  | pdf probe pages =>
    cases pages with
    | none => rfl
    | some l =>
      cases l with
      | nil => rfl
      | cons a as =>
        simp only [processItem]
        split <;> simp [addPages_slideHeight, emit]
  | image loaded =>
    cases loaded with
    | none => rfl
    | some img =>
      simp only [processItem]
      split <;> simp [addPages_slideHeight, emit]

theorem runItems_slideWidth (dpi total : ℕ) (c : Option ℕ) :
    ∀ (items : List ItemData) (i : ℕ) (st : LoopState),
      (runItems dpi total c i items st).prs.slideWidth = st.prs.slideWidth := by
  intro items
  induction items with
  | nil => intro i st; rfl
  | cons item rest ih =>
    intro i st
    simp only [runItems]
    split
    · rw [ih, processItem_slideWidth]
    · rfl

theorem runItems_slideHeight (dpi total : ℕ) (c : Option ℕ) :
    ∀ (items : List ItemData) (i : ℕ) (st : LoopState),
      (runItems dpi total c i items st).prs.slideHeight = st.prs.slideHeight := by
  intro items
  induction items with
  | nil => intro i st; rfl
  | cons item rest ih =>
    intro i st
    simp only [runItems]
    split
    · rw [ih, processItem_slideHeight]
    · rfl

theorem finalPres_slideWidth (first : ItemData) (rest : List ItemData)
    (dpi : ℕ) (c : Option ℕ) :
    (finalPres (first :: rest) dpi c).slideWidth = (initPres first dpi).slideWidth := by
  simp [finalPres, preSave, runItems_slideWidth]

theorem finalPres_slideHeight (first : ItemData) (rest : List ItemData)
    (dpi : ℕ) (c : Option ℕ) :
    (finalPres (first :: rest) dpi c).slideHeight = (initPres first dpi).slideHeight := by
  simp [finalPres, preSave, runItems_slideHeight]

/-! ### Every picture is placed at the origin, full-bleed, at the
DPI-determined quality -/

theorem picsOk_addSlide (dpi : ℕ) (prs : Pres) (s : Slide)
    (hprs : picsOk dpi prs)
    (hs : ∀ pc ∈ s.pictures,
      pc.left = 0 ∧ pc.top = 0 ∧ pc.width = prs.slideWidth ∧
        pc.height = prs.slideHeight ∧ pc.quality = quality dpi) :
    picsOk dpi (addSlide prs s) := by
  intro t ht pc hpc
  rcases List.mem_append.1 ht with h | h
  · exact hprs t h pc hpc
  · rw [List.mem_singleton] at h
    subst h
    exact hs pc hpc

theorem addPages_picsOk (dpi : ℕ) (c : Option ℕ) (i tot : ℕ) :
    ∀ (imgs : List Img) (p : ℕ) (st : LoopState),
      picsOk dpi st.prs → picsOk dpi ((addPages dpi c i tot p imgs st).1).prs := by
  intro imgs
  induction imgs with
  | nil => intro p st h; exact h
  | cons img rest ih =>
    intro p st h
    simp only [addPages]
    split
    · split
      · refine ih (p + 1) _ ?_
        refine picsOk_addSlide dpi _ _ h ?_
        intro pc hpc
        rw [List.mem_singleton] at hpc
        subst hpc
        exact ⟨rfl, rfl, rfl, rfl, rfl⟩
      · refine picsOk_addSlide dpi _ _ h ?_
        intro pc hpc
        simp at hpc
    · exact h

theorem processItem_picsOk (dpi total : ℕ) (c : Option ℕ) (i : ℕ)
    (item : ItemData) (st : LoopState) (h : picsOk dpi st.prs) :
    picsOk dpi (processItem dpi total c i item st).prs := by
  cases item with
  | pdf probe pages =>
    cases pages with
    | none => exact h
    | some l =>
      cases l with
      | nil => exact h
      | cons a as =>
        simp only [processItem]
        split <;>
          exact addPages_picsOk dpi c i (a :: as).length (a :: as) 0 _ h
  | image loaded =>
    cases loaded with
    | none => exact h
    | some img =>
      simp only [processItem]
      split <;>
        exact addPages_picsOk dpi c i 1 _ 0 _ h

theorem runItems_picsOk (dpi total : ℕ) (c : Option ℕ) :
    ∀ (items : List ItemData) (i : ℕ) (st : LoopState),
      picsOk dpi st.prs → picsOk dpi (runItems dpi total c i items st).prs := by
  intro items
  induction items with
  | nil => intro i st h; exact h
  | cons item rest ih =>
    intro i st h
    simp only [runItems]
    split
    · exact ih (i + 1) _ (processItem_picsOk dpi total c i item _ h)
    · exact h

theorem finalPres_picsOk (items : List ItemData) (dpi : ℕ) (c : Option ℕ) :
    picsOk dpi (finalPres items dpi c) := by
  cases items with
  | nil =>
    intro s hs pc hpc
    simp [finalPres, preSave, defaultPres] at hs
  | cons first rest =>
    refine runItems_picsOk dpi _ c _ 0 _ ?_
    intro s hs pc hpc
    unfold initPres at hs
    cases hp : get_reference_size first with
    | none => rw [hp] at hs; simp [defaultPres] at hs
    | some wh => rw [hp] at hs; cases wh; simp [defaultPres] at hs

/-! ### Characterization of the slides of an uncancelled run -/

theorem addPages_slides_none (dpi : ℕ) (i tot : ℕ) :
    ∀ (imgs : List Img) (p : ℕ) (st : LoopState),
      ((addPages dpi none i tot p imgs st).1).prs.slides
        = st.prs.slides ++
            pageSlides st.prs.slideWidth st.prs.slideHeight (quality dpi) imgs := by
  intro imgs
  induction imgs with
  | nil => intro p st; simp [addPages, pageSlides]
  | cons img rest ih =>
    intro p st
    simp only [addPages, aliveAt_none, if_true, pageSlides]
    by_cases hw : jpegWritable img.mode
    · rw [if_pos hw, if_pos hw, ih]
      simp [emit, addSlide]
    · rw [if_neg hw, if_neg hw]
      simp [emit, addSlide]

theorem processItem_slides_none (dpi total : ℕ) (i : ℕ)
    (item : ItemData) (st : LoopState) :
    (processItem dpi total none i item st).prs.slides
      = st.prs.slides ++
          itemSlides dpi st.prs.slideWidth st.prs.slideHeight item := by
  cases item with
  | pdf probe pages =>
    cases pages with
    | none => simp [processItem, itemSlides, itemImgs, pageSlides]
    | some l =>
      cases l with
      | nil => simp [processItem, itemSlides, itemImgs, pageSlides]
      | cons a as =>
        simp only [processItem]
        split <;>
          simp [itemSlides, itemImgs, addPages_slides_none, emit]
  | image loaded =>
    cases loaded with
    | none => simp [processItem, itemSlides, itemImgs, pageSlides]
    | some img =>
      simp only [processItem]
      split <;>
        simp [itemSlides, itemImgs, addPages_slides_none, emit]

theorem runItems_slides_none (dpi total : ℕ) :
    ∀ (items : List ItemData) (i : ℕ) (st : LoopState),
      (runItems dpi total none i items st).prs.slides
        = st.prs.slides ++
            (items.map
              (itemSlides dpi st.prs.slideWidth st.prs.slideHeight)).flatten := by
  intro items
  induction items with
  | nil => intro i st; simp [runItems]
  | cons item rest ih =>
    intro i st
    simp only [runItems, aliveAt_none, if_true]
    rw [ih]
    rw [processItem_slides_none, processItem_slideWidth, processItem_slideHeight]
    simp

theorem initPres_slides (first : ItemData) (dpi : ℕ) :
    (initPres first dpi).slides = [] := by
  unfold initPres
  cases get_reference_size first with
  | none => rfl
  | some wh => cases wh; rfl

theorem finalPres_slides_none (first : ItemData) (rest : List ItemData) (dpi : ℕ) :
    (finalPres (first :: rest) dpi none).slides
      = ((first :: rest).map
          (itemSlides dpi (initPres first dpi).slideWidth
            (initPres first dpi).slideHeight)).flatten := by
  simp only [finalPres, preSave]
  rw [runItems_slides_none]
  rw [initPres_slides]
  simp

/-! ### The `finished_signal` is emitted exactly once on a nonempty run -/

@[simp]
theorem countFinished_finishItem (total : ℕ) (st : LoopState) :
    countFinished (finishItem total st).events = countFinished st.events := by
  simp [finishItem, emit]

theorem addPages_countFinished (dpi : ℕ) (c : Option ℕ) (i tot : ℕ) :
    ∀ (imgs : List Img) (p : ℕ) (st : LoopState),
      countFinished ((addPages dpi c i tot p imgs st).1).events
        = countFinished st.events := by
  intro imgs
  induction imgs with
  | nil => intro p st; rfl
  | cons img rest ih =>
    intro p st
    simp only [addPages]
    split
    · split
      · rw [ih]
        simp [emit]
      · simp [emit]
    · rfl

theorem processItem_countFinished (dpi total : ℕ) (c : Option ℕ) (i : ℕ)
    (item : ItemData) (st : LoopState) :
    countFinished (processItem dpi total c i item st).events
      = countFinished st.events := by
  cases item with
  | pdf probe pages =>
    cases pages with
    | none => simp [processItem, emit]
    | some l =>
      cases l with
      | nil => simp [processItem, emit]
      | cons a as =>
        simp only [processItem]
        split <;> simp [emit, addPages_countFinished]
  | image loaded =>
    cases loaded with
    | none => simp [processItem, emit]
    | some img =>
      simp only [processItem]
      split <;> simp [emit, addPages_countFinished]

theorem runItems_countFinished (dpi total : ℕ) (c : Option ℕ) :
    ∀ (items : List ItemData) (i : ℕ) (st : LoopState),
      countFinished (runItems dpi total c i items st).events
        = countFinished st.events := by
  intro items
  induction items with
  | nil => intro i st; rfl
  | cons item rest ih =>
    intro i st
    simp only [runItems]
    split
    · rw [ih, processItem_countFinished]
    · rfl

theorem preSave_countFinished (items : List ItemData) (dpi : ℕ) (c : Option ℕ) :
    countFinished (preSave items dpi c).events = 0 := by
  cases items with
  | nil => rfl
  | cons first rest =>
    simp only [preSave]
    rw [runItems_countFinished]
    unfold initEvents
    cases get_reference_size first <;> simp [countFinished, isFinished]

theorem run_countFinished (items : List ItemData) (dpi : ℕ) (c : Option ℕ)
    (saveOk : Bool) (h : items ≠ []) :
    countFinished (run items dpi c saveOk).events = 1 := by
  cases items with
  | nil => exact absurd rfl h
  | cons first rest =>
    simp only [run]
    split
    · split <;> simp [preSave_countFinished]
    · simp [preSave_countFinished]

/-! ### Progress updates of an uncancelled run -/

theorem progressList_finishItem (total : ℕ) (st : LoopState) :
    progressList (finishItem total st).events
      = progressList st.events ++
          [(((st.processed + 1) * 100 / total : ℕ) : ℤ)] := by
  simp [finishItem, emit]

theorem addPages_processed (dpi : ℕ) (c : Option ℕ) (i tot : ℕ) :
    ∀ (imgs : List Img) (p : ℕ) (st : LoopState),
      ((addPages dpi c i tot p imgs st).1).processed = st.processed := by
  intro imgs
  induction imgs with
  | nil => intro p st; rfl
  | cons img rest ih =>
    intro p st
    simp only [addPages]
    split
    · split
      · rw [ih]; rfl
      · rfl
    · rfl

theorem addPages_progress (dpi : ℕ) (c : Option ℕ) (i tot : ℕ) :
    ∀ (imgs : List Img) (p : ℕ) (st : LoopState),
      progressList ((addPages dpi c i tot p imgs st).1).events
        = progressList st.events := by
  intro imgs
  induction imgs with
  | nil => intro p st; rfl
  | cons img rest ih =>
    intro p st
    simp only [addPages]
    split
    · split
      · rw [ih]
        simp [emit]
      · simp [emit]
    · rfl

theorem processItem_processed (dpi total : ℕ) (c : Option ℕ) (i : ℕ)
    (item : ItemData) (st : LoopState) :
    (processItem dpi total c i item st).processed
      = st.processed + (if skipsProgress item then 0 else 1) := by
  cases item with
  | pdf probe pages =>
    cases pages with
    | none => simp [processItem, skipsProgress, emit]
    | some l =>
      cases l with
      | nil => simp [processItem, skipsProgress, emit]
      | cons a as =>
        simp only [processItem]
        split <;> simp [skipsProgress, emit, addPages_processed]
  | image loaded =>
    cases loaded with
    | none => simp [processItem, skipsProgress, emit]
    | some img =>
      simp only [processItem]
      split <;> simp [skipsProgress, emit, addPages_processed]

theorem processItem_progress (dpi total : ℕ) (c : Option ℕ) (i : ℕ)
    (item : ItemData) (st : LoopState) :
    progressList (processItem dpi total c i item st).events
      = progressList st.events ++
          (if skipsProgress item then []
           else [(((st.processed + 1) * 100 / total : ℕ) : ℤ)]) := by
  cases item with
  | pdf probe pages =>
    cases pages with
    | none => simp [processItem, skipsProgress, progressList_finishItem, emit]
    | some l =>
      cases l with
      | nil => simp [processItem, skipsProgress, emit]
      | cons a as =>
        simp only [processItem]
        split <;>
          simp [skipsProgress, progressList_finishItem, emit,
            addPages_progress, addPages_processed]
  | image loaded =>
    cases loaded with
    | none => simp [processItem, skipsProgress, emit]
    | some img =>
      simp only [processItem]
      split <;>
        simp [skipsProgress, progressList_finishItem, emit,
          addPages_progress, addPages_processed]

theorem range_map_shift {α : Type} (f : ℕ → α) (n : ℕ) :
    (List.range (n + 1)).map f = f 0 :: (List.range n).map (fun j => f (j + 1)) := by
  rw [List.range_succ_eq_map]
  simp [List.map_map, Function.comp]

theorem runItems_progress_noskip (dpi total : ℕ) :
    ∀ (items : List ItemData) (i : ℕ) (st : LoopState),
      (∀ it ∈ items, skipsProgress it = false) →
      progressList (runItems dpi total none i items st).events
        = progressList st.events ++
            (List.range items.length).map
              (fun j => (((st.processed + j + 1) * 100 / total : ℕ) : ℤ)) := by
  intro items
  induction items with
  | nil => intro i st h; simp [runItems]
  | cons item rest ih =>
    intro i st h
    have hitem : skipsProgress item = false := h item (List.mem_cons_self item rest)
    have hrest : ∀ it ∈ rest, skipsProgress it = false :=
      fun it hit => h it (List.mem_cons_of_mem item hit)
    have hshift : (List.range (rest.length + 1)).map
          (fun j => (((st.processed + j + 1) * 100 / total : ℕ) : ℤ))
        = (((st.processed + 1) * 100 / total : ℕ) : ℤ) ::
            (List.range rest.length).map
              (fun j => (((st.processed + 1 + j + 1) * 100 / total : ℕ) : ℤ)) := by
      rw [List.range_succ_eq_map, List.map_cons, List.map_map]
      refine congrArg₂ List.cons rfl ?_
      refine List.map_congr_left fun j _ => ?_
      simp only [Function.comp_apply]
      have hj : st.processed + (j + 1) + 1 = st.processed + 1 + j + 1 := by ring
      rw [hj]
    simp only [runItems, aliveAt_none, if_true]
    rw [ih (i + 1) _ hrest]
    rw [processItem_progress, processItem_processed, hitem]
    simp only [Bool.false_eq_true, if_false, List.length_cons]
    rw [hshift, List.append_assoc, List.singleton_append]

/-! ### Slide counts -/

theorem pageSlides_length (sw sh : ℤ) (q : ℕ) :
    ∀ imgs : List Img, (pageSlides sw sh q imgs).length = emittedCount imgs := by
  intro imgs
  induction imgs with
  | nil => rfl
  | cons img rest ih =>
    simp only [pageSlides, emittedCount]
    split <;> simp [ih]

theorem pageSlides_writable (sw sh : ℤ) (q : ℕ) :
    ∀ imgs : List Img, (∀ im ∈ imgs, jpegWritable im.mode = true) →
      pageSlides sw sh q imgs
        = imgs.map (fun im => ⟨[⟨0, 0, sw, sh, q, im.mode⟩]⟩) := by
  intro imgs
  induction imgs with
  | nil => intro h; rfl
  | cons img rest ih =>
    intro h
    have himg := h img (List.mem_cons_self img rest)
    simp only [pageSlides, List.map_cons]
    rw [if_pos himg, ih (fun im hm => h im (List.mem_cons_of_mem img hm))]

theorem emittedCount_writable :
    ∀ imgs : List Img, (∀ im ∈ imgs, jpegWritable im.mode = true) →
      emittedCount imgs = imgs.length := by
  intro imgs
  induction imgs with
  | nil => intro h; rfl
  | cons img rest ih =>
    intro h
    have himg := h img (List.mem_cons_self img rest)
    simp only [emittedCount, List.length_cons]
    rw [if_pos himg, ih (fun im hm => h im (List.mem_cons_of_mem img hm))]

theorem itemImgs_loadFail (item : ItemData) (h : loadsOk item = false) :
    itemImgs item = [] := by
  cases item with
  | pdf probe pages =>
    cases pages with
    | none => rfl
    | some l => simp [loadsOk] at h
  | image loaded =>
    cases loaded with
    | none => rfl
    | some img => simp [loadsOk] at h

theorem loadedPages_of_not_processedOk (item : ItemData)
    (hw : allWritable item = true) (h : processedOk item = false) :
    loadedPages item = 0 := by
  cases item with
  | pdf probe pages =>
    cases pages with
    | none => rfl
    | some l =>
      cases l with
      | nil => rfl
      | cons a as => simp [processedOk, loadsOk, skipsProgress, hw] at h
  | image loaded =>
    cases loaded with
    | none => rfl
    | some img => simp [processedOk, loadsOk, skipsProgress, hw] at h

theorem filter_processedOk_sum :
    ∀ items : List ItemData, (∀ it ∈ items, allWritable it = true) →
      ((items.filter processedOk).map loadedPages).sum
        = (items.map loadedPages).sum := by
  intro items
  induction items with
  | nil => intro h; rfl
  | cons item rest ih =>
    intro h
    have hitem := h item (List.mem_cons_self item rest)
    have hrest := ih (fun it hit => h it (List.mem_cons_of_mem item hit))
    by_cases hp : processedOk item
    · simp [List.filter_cons, hp, hrest]
    · have h0 : loadedPages item = 0 :=
        loadedPages_of_not_processedOk item hitem (by simpa using hp)
      simp [List.filter_cons, hp, hrest, h0]

theorem length_flatten_sum {α : Type} (l : List (List α)) :
    l.flatten.length = (l.map List.length).sum := by
  induction l with
  | nil => rfl
  | cons a t ih => simp [ih]

theorem finalPres_length_none (items : List ItemData) (dpi : ℕ) :
    (finalPres items dpi none).slides.length
      = (items.map (fun it => emittedCount (itemImgs it))).sum := by
  cases items with
  | nil => rfl
  | cons first rest =>
    rw [finalPres_slides_none, length_flatten_sum, List.map_map]
    refine congrArg List.sum (List.map_congr_left fun it _ => ?_)
    simp [Function.comp, itemSlides, pageSlides_length]

/-! ### The save step -/

theorem run_cancelled (items : List ItemData) (dpi : ℕ) (c : Option ℕ)
    (saveOk : Bool) (hne : items ≠ [])
    (hc : aliveAt c (preSave items dpi c).k = false) :
    run items dpi c saveOk = ⟨(preSave items dpi c).events ++ [.finished], none⟩ := by
  cases items with
  | nil => exact absurd rfl hne
  | cons first rest =>
    simp only [run]
    rw [if_neg]
    rw [hc]
    simp

theorem initEvents_progress (first : ItemData) :
    progressList (initEvents first) = [] := by
  unfold initEvents
  cases get_reference_size first <;> simp

theorem run_progress_none (items : List ItemData) (dpi : ℕ) (saveOk : Bool) :
    progressList (run items dpi none saveOk).events
      = progressList (preSave items dpi none).events := by
  cases items with
  | nil => rfl
  | cons first rest =>
    simp only [run, aliveAt_none, if_true]
    split <;> simp

/-! ### Arithmetic about Python `int` truncation -/

theorem pyInt_of_nonneg (q : ℚ) (h : 0 ≤ q) : pyInt q = ⌊q⌋ :=
  if_pos h

/-- On exact arithmetic, Python's `int((a / b) * 100)` for naturals is the
integer division `a * 100 / b` (both sides are 0 when `b = 0`, where Python
would instead raise `ZeroDivisionError`). -/
theorem pyInt_pct (a b : ℕ) :
    pyInt ((a : ℚ) / (b : ℚ) * 100) = ((a * 100 / b : ℕ) : ℤ) := by
  rcases Nat.eq_zero_or_pos b with hb | hb
  · subst hb
    simp [pyInt]
  · rw [pyInt_of_nonneg _ (by positivity)]
    have h : (a : ℚ) / (b : ℚ) * 100 = ((a * 100 : ℕ) : ℚ) / ((b : ℕ) : ℚ) := by
      push_cast
      ring
    rw [h, Rat.floor_natCast_div_natCast]
    exact (Int.natCast_div _ _).symm

/-- On exact arithmetic, Python's `int(px / dpi * 914400)` for naturals is
the integer division `px * 914400 / dpi`. -/
theorem pyInt_emu (px dpi : ℕ) :
    pyInt ((px : ℚ) / (dpi : ℚ) * 914400) = ((px * 914400 / dpi : ℕ) : ℤ) := by
  rcases Nat.eq_zero_or_pos dpi with hd | hd
  · subst hd
    simp [pyInt]
  · rw [pyInt_of_nonneg _ (by positivity)]
    have h : (px : ℚ) / (dpi : ℚ) * 914400 = ((px * 914400 : ℕ) : ℚ) / ((dpi : ℕ) : ℚ) := by
      push_cast
      ring
    rw [h, Rat.floor_natCast_div_natCast]
    exact (Int.natCast_div _ _).symm

theorem initPres_width (first : ItemData) (dpi w h : ℕ)
    (hp : get_reference_size first = some (w, h)) :
    (initPres first dpi).slideWidth = ((w * 914400 / dpi : ℕ) : ℤ) := by
  unfold initPres
  rw [hp]

theorem initPres_height (first : ItemData) (dpi w h : ℕ)
    (hp : get_reference_size first = some (w, h)) :
    (initPres first dpi).slideHeight = ((h * 914400 / dpi : ℕ) : ℤ) := by
  unfold initPres
  rw [hp]

/-! ## Claims -/

/-- C2: for every job whose reference-size probe succeeds, the page size is
computed once from the first item's pixel dimensions as
`int(pixels / dpi * 914400)` in each dimension, and every picture placed on
any slide of the job — whatever its source image's own dimensions, and
whether or not the job is cancelled — is given exactly this fixed width and
height. -/
theorem page_size_fixed (first : ItemData) (rest : List ItemData) (dpi : ℕ)
    (c : Option ℕ) (w h : ℕ) (hp : get_reference_size first = some (w, h)) :
    (finalPres (first :: rest) dpi c).slideWidth
        = pyInt ((w : ℚ) / (dpi : ℚ) * 914400) ∧
    (finalPres (first :: rest) dpi c).slideHeight
        = pyInt ((h : ℚ) / (dpi : ℚ) * 914400) ∧
    ∀ s ∈ (finalPres (first :: rest) dpi c).slides, ∀ pc ∈ s.pictures,
      pc.width = (finalPres (first :: rest) dpi c).slideWidth ∧
        pc.height = (finalPres (first :: rest) dpi c).slideHeight := by
  refine ⟨?_, ?_, ?_⟩
  · rw [finalPres_slideWidth, initPres_width first dpi w h hp, pyInt_emu]
  · rw [finalPres_slideHeight, initPres_height first dpi w h hp, pyInt_emu]
  · intro s hs pc hpc
    have h1 := finalPres_picsOk (first :: rest) dpi c s hs pc hpc
    exact ⟨h1.2.2.1, h1.2.2.2.1⟩

/-- Witness for C2: a 800×600 first image at 150 dpi fixes the page size at
4876800 × 3657600 EMU. -/
theorem page_size_fixed_witness :
    (finalPres [.image (some ⟨800, 600, .RGB⟩)] 150 none).slideWidth = 4876800 ∧
    (finalPres [.image (some ⟨800, 600, .RGB⟩)] 150 none).slideHeight = 3657600 := by
  have h := page_size_fixed (.image (some ⟨800, 600, .RGB⟩)) [] 150 none 800 600 rfl
  refine ⟨h.1.trans ?_, h.2.1.trans ?_⟩ <;>
    · rw [pyInt_emu]
      norm_num

/-- C3: a failure to rasterize or load one item yields no slides for that
item, leaves the slide count contributed by the other items unchanged, and
does not abort the job (the run still finishes exactly once). -/
theorem bad_item_isolated (pre post : List ItemData) (bad : ItemData) (dpi : ℕ)
    (saveOk : Bool) (hbad : loadsOk bad = false) :
    (∀ sw sh : ℤ, itemSlides dpi sw sh bad = []) ∧
    (finalPres (pre ++ bad :: post) dpi none).slides.length
      = (finalPres (pre ++ post) dpi none).slides.length ∧
    countFinished (run (pre ++ bad :: post) dpi none saveOk).events = 1 := by
  have himgs := itemImgs_loadFail bad hbad
  refine ⟨?_, ?_, ?_⟩
  · intro sw sh
    simp [itemSlides, himgs, pageSlides]
  · rw [finalPres_length_none, finalPres_length_none]
    simp [himgs, emittedCount]
  · refine run_countFinished _ _ _ _ ?_
    simp

/-- Witness for C3: an unreadable image between two good ones contributes
nothing, the other two slides survive, and the job finishes. -/
theorem bad_item_isolated_witness :
    itemSlides 150 0 0 (.image none) = [] ∧
    (finalPres [.image (some ⟨640, 480, .RGB⟩), .image none,
        .image (some ⟨640, 480, .RGB⟩)] 150 none).slides.length
      = (finalPres [.image (some ⟨640, 480, .RGB⟩),
          .image (some ⟨640, 480, .RGB⟩)] 150 none).slides.length ∧
    countFinished (run [.image (some ⟨640, 480, .RGB⟩), .image none,
        .image (some ⟨640, 480, .RGB⟩)] 150 none true).events = 1 := by
  have h := bad_item_isolated [.image (some ⟨640, 480, .RGB⟩)]
    [.image (some ⟨640, 480, .RGB⟩)] (.image none) 150 true rfl
  exact ⟨h.1 0 0, h.2.1, h.2.2⟩

/-- C7: every picture embedded in the deck carries JPEG quality 95 when the
configured DPI is at least 300, and quality 85 otherwise, in every run. -/
theorem jpeg_quality_policy (items : List ItemData) (dpi : ℕ) (c : Option ℕ) :
    ∀ s ∈ (finalPres items dpi c).slides, ∀ pc ∈ s.pictures,
      pc.quality = if 300 ≤ dpi then 95 else 85 := by
  intro s hs pc hpc
  exact (finalPres_picsOk items dpi c s hs pc hpc).2.2.2.2

/-- Witness for C7: at 400 dpi the embedded picture has quality 95; at
150 dpi it has quality 85 (the spec's two examples). -/
theorem jpeg_quality_policy_witness :
    (⟨0, 0, 1828800, 1371600, 95, .RGB⟩ : Picture).quality = 95 ∧
    (⟨0, 0, 4876800, 3657600, 85, .RGB⟩ : Picture).quality = 85 := by
  constructor
  · have h := jpeg_quality_policy [.image (some ⟨800, 600, .RGB⟩)] 400 none
      ⟨[⟨0, 0, 1828800, 1371600, 95, .RGB⟩]⟩ (by decide)
      ⟨0, 0, 1828800, 1371600, 95, .RGB⟩ (by decide)
    exact h.trans (by decide)
  · have h := jpeg_quality_policy [.image (some ⟨800, 600, .RGB⟩)] 150 none
      ⟨[⟨0, 0, 4876800, 3657600, 85, .RGB⟩]⟩ (by decide)
      ⟨0, 0, 4876800, 3657600, 85, .RGB⟩ (by decide)
    exact h.trans (by decide)

/-- C9: on a successful probe each stored slide dimension is the floor of
the exact master-unit length `pixels * 914400 / dpi` — the fractional part
is discarded (the stored value is at most the exact value and exceeds
it minus one), not rounded to nearest. -/
theorem size_truncation (first : ItemData) (rest : List ItemData) (dpi : ℕ)
    (c : Option ℕ) (w h : ℕ) (hdpi : 0 < dpi)
    (hp : get_reference_size first = some (w, h)) :
    ((finalPres (first :: rest) dpi c).slideWidth
        = ⌊((w * 914400 : ℕ) : ℚ) / (dpi : ℚ)⌋ ∧
      ((finalPres (first :: rest) dpi c).slideWidth : ℚ)
        ≤ ((w * 914400 : ℕ) : ℚ) / (dpi : ℚ) ∧
      ((w * 914400 : ℕ) : ℚ) / (dpi : ℚ)
        < (finalPres (first :: rest) dpi c).slideWidth + 1) ∧
    ((finalPres (first :: rest) dpi c).slideHeight
        = ⌊((h * 914400 : ℕ) : ℚ) / (dpi : ℚ)⌋ ∧
      ((finalPres (first :: rest) dpi c).slideHeight : ℚ)
        ≤ ((h * 914400 : ℕ) : ℚ) / (dpi : ℚ) ∧
      ((h * 914400 : ℕ) : ℚ) / (dpi : ℚ)
        < (finalPres (first :: rest) dpi c).slideHeight + 1) := by
  have hkey : ∀ x : ℕ, ((x * 914400 / dpi : ℕ) : ℤ)
      = ⌊((x * 914400 : ℕ) : ℚ) / (dpi : ℚ)⌋ := by
    intro x
    rw [Rat.floor_natCast_div_natCast]
    exact Int.natCast_div _ _
  have hwidth : (finalPres (first :: rest) dpi c).slideWidth
      = ⌊((w * 914400 : ℕ) : ℚ) / (dpi : ℚ)⌋ := by
    rw [finalPres_slideWidth, initPres_width first dpi w h hp, hkey]
  have hheight : (finalPres (first :: rest) dpi c).slideHeight
      = ⌊((h * 914400 : ℕ) : ℚ) / (dpi : ℚ)⌋ := by
    rw [finalPres_slideHeight, initPres_height first dpi w h hp, hkey]
  refine ⟨⟨hwidth, ?_, ?_⟩, hheight, ?_, ?_⟩
  · rw [hwidth]
    exact Int.floor_le _
  · rw [hwidth]
    exact Int.lt_floor_add_one _
  · rw [hheight]
    exact Int.floor_le _
  · rw [hheight]
    exact Int.lt_floor_add_one _

/-- Witness for C9: a 1×1 image at dpi 7 stores ⌊914400/7⌋ = 130628,
discarding the fractional part 4/7. -/
theorem size_truncation_witness :
    (finalPres [.image (some ⟨1, 1, .RGB⟩)] 7 none).slideWidth = 130628 := by
  have h := size_truncation (.image (some ⟨1, 1, .RGB⟩)) [] 7 none 1 1
    (by decide) rfl
  refine h.1.1.trans ?_
  rw [Rat.floor_natCast_div_natCast]
  norm_num

/-- C10: on an empty file list the worker returns right after the single
"initializing" status — no progress update, no save, no finished signal —
while every nonempty run emits the finished signal exactly once, whatever
the errors, the cancellation point or the save outcome. -/
theorem empty_run_behavior :
    (∀ (dpi : ℕ) (c : Option ℕ) (so : Bool),
      run [] dpi c so = ⟨[.status .starting], none⟩) ∧
    (∀ (items : List ItemData) (dpi : ℕ) (c : Option ℕ) (so : Bool),
      items ≠ [] → countFinished (run items dpi c so).events = 1) := by
  constructor
  · intro dpi c so
    rfl
  · intro items dpi c so h
    exact run_countFinished items dpi c so h

/-- Witness for C10: the empty run at 300 dpi, and a nonempty run with a
single unreadable item that still finishes exactly once. -/
theorem empty_run_behavior_witness :
    run [] 300 none true = ⟨[.status .starting], none⟩ ∧
    countFinished (run [.image none] 300 none true).events = 1 :=
  ⟨empty_run_behavior.1 300 none true,
    empty_run_behavior.2 [.image none] 300 none true (by decide)⟩

/-- C1 (counterexample): cancelling between items does NOT yield a saved
file — `prs.save` sits under `if self.is_running:` (line 152), so a
cancelled run writes nothing, while the identical uncancelled run saves.
This refutes the claim that a cancelled run "still proceeds to the save
step" and "yields a saved output file". -/
theorem cancel_discards_save_cex :
    (run [.image (some ⟨640, 480, .RGB⟩), .image (some ⟨640, 480, .RGB⟩)]
      150 (some 2) true).saved = none ∧
    (run [.image (some ⟨640, 480, .RGB⟩), .image (some ⟨640, 480, .RGB⟩)]
      150 none true).saved.isSome = true := by
  decide

/-- C1 (amended): if the liveness flag is cleared before the pre-save guard
polls it, the run stops adding slides and skips the save step entirely — no
output file is written (the partial deck is discarded, not saved) — and the
finished signal is still emitted exactly once. -/
theorem cancel_discards_save (items : List ItemData) (dpi t : ℕ) (saveOk : Bool)
    (hne : items ≠ [])
    (hc : aliveAt (some t) (preSave items dpi (some t)).k = false) :
    (run items dpi (some t) saveOk).saved = none ∧
    countFinished (run items dpi (some t) saveOk).events = 1 := by
  rw [run_cancelled items dpi (some t) saveOk hne hc]
  refine ⟨rfl, ?_⟩
  simp [preSave_countFinished]

/-- Witness for C1 (amended): a job of two good images cancelled after the
first page poll saves nothing and finishes once. -/
theorem cancel_discards_save_witness :
    (run [.image (some ⟨640, 480, .RGB⟩), .image (some ⟨640, 480, .RGB⟩)]
      150 (some 1) true).saved = none ∧
    countFinished (run [.image (some ⟨640, 480, .RGB⟩),
      .image (some ⟨640, 480, .RGB⟩)] 150 (some 1) true).events = 1 :=
  cancel_discards_save
    [.image (some ⟨640, 480, .RGB⟩), .image (some ⟨640, 480, .RGB⟩)]
    150 1 true (by decide) (by decide)

/-- C4 (counterexample): a grayscale-with-alpha (`LA`) image loads fine,
is not flattened (only `RGBA`/`P` are), gets its blank slide added, and then
the JPEG encode raises — leaving one pictureless slide from an item that was
not successfully processed, so the slide count (1) differs from the sum of
page counts over successfully processed items (0). -/
theorem slide_count_cex :
    ¬ ((finalPres [.image (some ⟨10, 10, .LA⟩)] 150 none).slides.length
        = (([ItemData.image (some ⟨10, 10, .LA⟩)].filter processedOk).map
            loadedPages).sum) := by
  decide

/-- C4 (amended): for every uncancelled job in which every loaded page has
an encoder-supported mode (after the `RGBA`/`P` flattening), the number of
slides equals the sum of page counts over all successfully processed items
(one per document page, one per image item). -/
theorem slide_count (items : List ItemData) (dpi : ℕ)
    (hw : ∀ it ∈ items, allWritable it = true) :
    (finalPres items dpi none).slides.length
      = ((items.filter processedOk).map loadedPages).sum := by
  rw [finalPres_length_none, filter_processedOk_sum items hw]
  refine congrArg List.sum (List.map_congr_left fun it hit => ?_)
  have hwr : ∀ im ∈ itemImgs it, jpegWritable im.mode = true := by
    have h1 := hw it hit
    simpa [allWritable, List.all_eq_true] using h1
  rw [emittedCount_writable _ hwr]
  rfl

/-- Witness for C4 (amended): the spec's example — a two-page PDF, a corrupt
PNG, and a good JPG at 150 dpi — yields exactly 3 slides. -/
theorem slide_count_witness :
    (finalPres [.pdf (some [⟨800, 600, .RGB⟩])
        (some [⟨800, 600, .RGB⟩, ⟨800, 600, .RGB⟩]),
      .image none, .image (some ⟨640, 480, .RGB⟩)] 150 none).slides.length = 3 := by
  have h := slide_count [.pdf (some [⟨800, 600, .RGB⟩])
      (some [⟨800, 600, .RGB⟩, ⟨800, 600, .RGB⟩]),
    .image none, .image (some ⟨640, 480, .RGB⟩)] 150 (by decide)
  exact h.trans (by decide)

/-- C5 (counterexample): an `LA` image's slide is appended but holds zero
images (its JPEG encode raised after `add_slide`), refuting "one new blank
slide … holding exactly one image" for every emitted slide. -/
theorem slides_structure_cex :
    ((finalPres [.image (some ⟨10, 10, .LA⟩)] 150 none).slides.map
        fun s => s.pictures.length) = [0] := by
  decide

/-- C5 (amended): for every uncancelled job in which every loaded page has
an encoder-supported mode (after flattening), the output slides are exactly:
for each item in list order, for each of its pages in page order, one slide
holding one image at the origin stretched to the fixed page size. -/
theorem slides_structure (items : List ItemData) (dpi : ℕ)
    (hw : ∀ it ∈ items, allWritable it = true) :
    (finalPres items dpi none).slides
      = (items.map fun it => (itemImgs it).map fun im =>
          Slide.mk [⟨0, 0, (finalPres items dpi none).slideWidth,
            (finalPres items dpi none).slideHeight, quality dpi, im.mode⟩]).flatten := by
  cases items with
  | nil => rfl
  | cons first rest =>
    rw [finalPres_slides_none, finalPres_slideWidth, finalPres_slideHeight]
    refine congrArg List.flatten (List.map_congr_left fun it hit => ?_)
    have hwr : ∀ im ∈ itemImgs it, jpegWritable im.mode = true := by
      have h1 := hw it hit
      simpa [allWritable, List.all_eq_true] using h1
    simp only [itemSlides]
    exact pageSlides_writable _ _ _ _ hwr

/-- Witness for C5 (amended): a single 10×10 image at 150 dpi yields one
slide with one full-bleed picture at the origin. -/
theorem slides_structure_witness :
    (finalPres [.image (some ⟨10, 10, .RGB⟩)] 150 none).slides
      = [⟨[⟨0, 0, 60960, 60960, 85, .RGB⟩]⟩] := by
  have h := slides_structure [.image (some ⟨10, 10, .RGB⟩)] 150 (by decide)
  exact h.trans (by decide)

/-- C6 (counterexample): an unreadable image hits the `continue` at line 116,
which bypasses `processed_count += 1` and the progress emit — so this
two-item job emits only one progress update, and its final value is 50, not
100, refuting "updated exactly once per item" and "after the last item the
reported progress is 100". -/
theorem progress_per_item_cex :
    progressList (run [.image none, .image (some ⟨640, 480, .RGB⟩)]
      150 none true).events = [50] := by
  decide

/-- C6 (amended): in an uncancelled job where no item takes a `continue`
path (empty PDF rasterization or failed image open), progress is emitted
exactly once per item as `int(completed_items / total_items * 100)`, and the
final update is 100.  Items skipped by a `continue` path emit no update. -/
theorem run_progress_per_item (items : List ItemData) (dpi : ℕ) (saveOk : Bool)
    (hne : items ≠ []) (hns : ∀ it ∈ items, skipsProgress it = false) :
    progressList (run items dpi none saveOk).events
      = (List.range items.length).map
          (fun j => pyInt (((j + 1 : ℕ) : ℚ) / ((items.length : ℕ) : ℚ) * 100)) ∧
    (progressList (run items dpi none saveOk).events).getLast? = some 100 := by
  cases items with
  | nil => exact absurd rfl hne
  | cons first rest =>
    have h0 : progressList (run (first :: rest) dpi none saveOk).events
        = (List.range (first :: rest).length).map
            (fun j => (((j + 1) * 100 / (first :: rest).length : ℕ) : ℤ)) := by
      rw [run_progress_none]
      simp only [preSave]
      rw [runItems_progress_noskip dpi (first :: rest).length (first :: rest) 0
        ⟨0, initEvents first, initPres first dpi, 0⟩ hns]
      simp [initEvents_progress, Nat.zero_add]
    constructor
    · rw [h0]
      exact List.map_congr_left fun j _ =>
        (pyInt_pct (j + 1) (first :: rest).length).symm
    · rw [h0]
      rw [List.length_cons, List.range_succ, List.map_append]
      simp only [List.map_cons, List.map_nil]
      rw [List.getLast?_concat]
      have hc : (rest.length + 1) * 100 / (rest.length + 1) = 100 :=
        Nat.mul_div_cancel_left 100 (Nat.succ_pos rest.length)
      rw [hc]
      norm_num

/-- Witness for C6 (amended): two good images at 150 dpi emit progress
updates 50 then 100. -/
theorem run_progress_per_item_witness :
    progressList (run [.image (some ⟨640, 480, .RGB⟩),
      .image (some ⟨640, 480, .RGB⟩)] 150 none true).events = [50, 100] ∧
    (progressList (run [.image (some ⟨640, 480, .RGB⟩),
      .image (some ⟨640, 480, .RGB⟩)] 150 none true).events).getLast?
        = some 100 := by
  have h := run_progress_per_item
    [.image (some ⟨640, 480, .RGB⟩), .image (some ⟨640, 480, .RGB⟩)]
    150 true (by decide) (by decide)
  refine ⟨h.1.trans ?_, h.2⟩
  rw [show List.range ([ItemData.image (some ⟨640, 480, .RGB⟩),
    .image (some ⟨640, 480, .RGB⟩)].length) = [0, 1] from rfl]
  rw [List.map_cons, List.map_cons, List.map_nil, pyInt_pct, pyInt_pct]
  norm_num

/-- C8 (counterexample): PIL's `LA` mode (grayscale with alpha) carries an
alpha channel, yet the code's `img.mode in ('RGBA', 'P')` test does not
flatten it — the unconverted image then fails to encode, leaving an empty
slide — refuting "if the mode carries an alpha channel or a palette, the
image is flattened to RGB before it is encoded". -/
theorem flatten_modes_cex :
    Mode.hasAlpha .LA = true ∧ effModeFn .LA ≠ .RGB ∧
    (finalPres [.image (some ⟨10, 10, .LA⟩)] 150 none).slides = [⟨[]⟩] := by
  decide

/-- C8 (amended): exactly the modes `RGBA` and `P` are flattened to RGB
before encoding — such an image is encoded as an RGB picture on its slide —
while every other mode (including other alpha-carrying modes such as `LA`)
is passed through unchanged. -/
theorem flatten_modes (im : Img) (dpi : ℕ)
    (hm : im.mode = .RGBA ∨ im.mode = .P) :
    itemImgs (.image (some im)) = [{ im with mode := .RGB }] ∧
    (finalPres [.image (some im)] dpi none).slides
      = [⟨[⟨0, 0, (finalPres [.image (some im)] dpi none).slideWidth,
            (finalPres [.image (some im)] dpi none).slideHeight,
            quality dpi, .RGB⟩]⟩] ∧
    (∀ m : Mode, m ≠ .RGBA → m ≠ .P → effModeFn m = m) := by
  have heff : effModeFn im.mode = .RGB := by
    rcases hm with hm | hm <;> simp [effModeFn, hm]
  refine ⟨?_, ?_, ?_⟩
  · simp [itemImgs, heff]
  · rw [finalPres_slides_none, finalPres_slideWidth, finalPres_slideHeight]
    simp [itemSlides, itemImgs, heff, pageSlides, jpegWritable,
      Mode.hasAlpha, Mode.isPalette]
  · intro m h1 h2
    simp [effModeFn, h1, h2]

/-- Witness for C8 (amended): an `RGBA` image is flattened to RGB, and mode
`L` passes through unchanged. -/
theorem flatten_modes_witness :
    itemImgs (.image (some ⟨10, 10, .RGBA⟩)) = [⟨10, 10, .RGB⟩] ∧
    effModeFn .L = .L := by
  have h := flatten_modes ⟨10, 10, .RGBA⟩ 150 (Or.inl rfl)
  exact ⟨h.1, h.2.2 .L (by decide) (by decide)⟩

end PdfToPptx
